import Mathlib

/-!
Shallow embedding of the dialite startup loader
(`load_dictionaries_async.py`): a singleton `DictionaryLoader` that decodes
eleven pickle / bz2-pickle artifacts through a four-worker thread pool and
exposes them as module-level dictionaries.  File contents are modeled
abstractly (a path either maps to a file or is absent; a file records whether
reads succeed and what each of the two deserializers would yield on its
bytes); everything else follows the Python source line by line.
-/

namespace Dialite

/-- Decoded payload of one artifact: the opaque mapping-like container that
`pickle.load` returns.  Modeled as an association list; its internals are
never inspected by the loader. -/
abbrev Payload := List (String × String)

/-- Model of one on-disk file: `readable = false` models permission or
transient I/O failures on open/read; `rawPickleContent` is what `pickle.load`
yields on the raw bytes (`none` when the bytes do not deserialize);
`bz2PickleContent` is what bz2-decompression followed by `cPickle.load`
yields on the same bytes (`none` when decompression or deserialization
fails). -/
structure FileData where
  readable : Bool
  rawPickleContent : Option Payload
  bz2PickleContent : Option Payload
deriving DecidableEq

/-- The filesystem: partial map from paths to file contents.  `fs p = none`
models `os.path.exists p` being false (source line 100). -/
abbrev FileSystem := String → Option FileData

/-- The failure taxonomy of a single-artifact decode, as named by the spec:
`missingArtifact` is the `FileNotFoundError` raised at source line 101,
`decodeError` is an unpickling/decompression exception, `ioError` is any
other `OSError` raised while opening or reading the file.  Each carries the
offending path. -/
inductive DecodeFailure where
  | missingArtifact (path : String)
  | decodeError (path : String)
  | ioError (path : String)
deriving DecidableEq

/-- Python `s.endswith(suf)` (used at source line 103): `suf` is a literal
suffix of the character sequence of `s`. -/
def pyEndswith (s suf : String) : Bool := decide (suf.data <:+ s.data)

/-- The raw-format branch of the codec (source lines 104-105):
`open(path, "rb")` followed by `pickle.load(f)`.  The open/read raises an
I/O error when the file is unreadable; otherwise the result is whatever
`pickle.load` yields on the raw bytes, a decode error when they do not
deserialize. -/
def decodeRaw (f : FileData) (path : String) : Except DecodeFailure Payload :=
  if f.readable = false then .error (.ioError path)
  else
    match f.rawPickleContent with
    | some d => .ok d
    | none => .error (.decodeError path)

/-- The compressed-format branch of the codec (source lines 107-108):
`bz2.BZ2File(path, "rb")` followed by `cPickle.load(f)`: decompress the byte
stream, then deserialize the decompressed bytes. -/
def decodeCompressed (f : FileData) (path : String) : Except DecodeFailure Payload :=
  if f.readable = false then .error (.ioError path)
  else
    match f.bz2PickleContent with
    | some d => .ok d
    | none => .error (.decodeError path)

/-- `DictionaryLoader._load_single_dictionary` (source lines 96-117): raise
`FileNotFoundError` when the path does not exist; otherwise dispatch purely
on the filename suffix - a path ending in `.pickle` is decoded as a raw
pickle, every other path as a bz2-compressed pickle.  The `except` clause at
lines 115-117 re-raises every exception unchanged, so every failure
propagates to the caller. -/
def load_single_dictionary (fs : FileSystem) (path : String) :
    Except DecodeFailure Payload :=
  match fs path with
  | none => .error (.missingArtifact path)
  | some f =>
    if pyEndswith path (".pickle") then decodeRaw f path
    else decodeCompressed f path

/-- `os.path.join a b` for a relative second component: `a ++ "/" ++ b`. -/
def ospJoin (a b : String) : String := a ++ "/" ++ b

/-- `self.YAGO_PATH` (source line 34). -/
def YAGO_PATH (base : String) : String := ospJoin base ("yago")

/-- `self.LABEL_FILE_PATH` (source line 35). -/
def LABEL_FILE_PATH (base : String) : String :=
  ospJoin (YAGO_PATH base) ("yago-wd-labels_dict.pickle")

/-- `self.TYPE_FILE_PATH` (source line 36). -/
def TYPE_FILE_PATH (base : String) : String :=
  ospJoin (YAGO_PATH base) ("yago-wd-full-types_dict.pickle")

/-- `self.CLASS_FILE_PATH` (source line 37). -/
def CLASS_FILE_PATH (base : String) : String :=
  ospJoin (YAGO_PATH base) ("yago-wd-class_dict.pickle")

/-- `self.FACT_FILE_PATH` (source line 38). -/
def FACT_FILE_PATH (base : String) : String :=
  ospJoin (YAGO_PATH base) ("yago-wd-facts_dict.pickle")

/-- `self.YAGO_MAIN_INVERTED_INDEX_PATH` (source lines 41-42). -/
def YAGO_MAIN_INVERTED_INDEX_PATH (base : String) : String :=
  ospJoin base ("santos/hashmap/dialite_datalake_main_yago_index.pickle")

/-- `self.YAGO_MAIN_RELATION_INDEX_PATH` (source lines 43-44). -/
def YAGO_MAIN_RELATION_INDEX_PATH (base : String) : String :=
  ospJoin base ("santos/hashmap/dialite_datalake_main_relation_index.pickle")

/-- `self.YAGO_MAIN_PICKLE_TRIPLE_INDEX_PATH` (source lines 45-46). -/
def YAGO_MAIN_PICKLE_TRIPLE_INDEX_PATH (base : String) : String :=
  ospJoin base ("santos/hashmap/dialite_datalake_main_triple_index.pickle")

/-- `self.SYNTH_TYPE_KB_PATH` (source lines 49-50). -/
def SYNTH_TYPE_KB_PATH (base : String) : String :=
  ospJoin base ("santos/hashmap/dialite_datalake_synth_type_kb.pbz2")

/-- `self.SYNTH_RELATION_KB_PATH` (source lines 51-52). -/
def SYNTH_RELATION_KB_PATH (base : String) : String :=
  ospJoin base ("santos/hashmap/dialite_datalake_synth_relation_kb.pbz2")

/-- `self.SYNTH_TYPE_INVERTED_INDEX_PATH` (source lines 53-54). -/
def SYNTH_TYPE_INVERTED_INDEX_PATH (base : String) : String :=
  ospJoin base ("santos/hashmap/dialite_datalake_synth_type_inverted_index.pbz2")

/-- `self.SYNTH_RELATION_INVERTED_INDEX_PATH` (source lines 55-56). -/
def SYNTH_RELATION_INVERTED_INDEX_PATH (base : String) : String :=
  ospJoin base ("santos/hashmap/dialite_datalake_synth_relation_inverted_index.pbz2")

/-- The artifact registry: the `load_tasks` list of source lines 60-72, one
`(path, attribute name)` pair per artifact, with paths resolved under the
configured base directory. -/
def load_tasks (base : String) : List (String × String) :=
  [(LABEL_FILE_PATH base, "label_dict"),
   (TYPE_FILE_PATH base, "type_dict"),
   (CLASS_FILE_PATH base, "class_dict"),
   (FACT_FILE_PATH base, "fact_dict"),
   (YAGO_MAIN_INVERTED_INDEX_PATH base, "yago_inverted_index"),
   (YAGO_MAIN_RELATION_INDEX_PATH base, "yago_relation_index"),
   (YAGO_MAIN_PICKLE_TRIPLE_INDEX_PATH base, "main_index_triples"),
   (SYNTH_TYPE_KB_PATH base, "synth_type_kb"),
   (SYNTH_RELATION_KB_PATH base, "synth_relation_kb"),
   (SYNTH_TYPE_INVERTED_INDEX_PATH base, "synth_type_inverted_index"),
   (SYNTH_RELATION_INVERTED_INDEX_PATH base, "synth_relation_inverted_index")]

/-- The eleven logical keys of the registry, in declaration order. -/
def dictionaryKeys : List String :=
  ["label_dict", "type_dict", "class_dict", "fact_dict",
   "yago_inverted_index", "yago_relation_index", "main_index_triples",
   "synth_type_kb", "synth_relation_kb",
   "synth_type_inverted_index", "synth_relation_inverted_index"]

/-- `os.path.basename p`: the part of `p` after its last slash. -/
def basename (p : String) : String :=
  String.mk ((p.data.reverse.takeWhile (fun c => c ≠ '/')).reverse)

/-- `str(e)` for the exception behind a decode failure.  The message of the
`FileNotFoundError` is fixed by source line 101; the messages of unpickling
and I/O exceptions are produced by the Python runtime and are represented
here by fixed descriptive texts carrying the same information (failure kind
and path). -/
def failMessage : DecodeFailure → String
  | .missingArtifact p => "File not found: " ++ p
  | .decodeError p => "could not deserialize: " ++ p
  | .ioError p => "read failed: " ++ p

/-- The diagnostic printed at source line 90 before the process exits. -/
def failDiag (path : String) (e : DecodeFailure) : String :=
  "❌ Failed to load " ++ basename path ++ ": " ++ failMessage e

/-- The success line printed at source line 88. -/
def successDiag (path : String) : String :=
  "✅ Successfully loaded " ++ basename path

/-- Outcome of the `as_completed` loop of `_load_all_dictionaries`: either
every task completed and the instance carries one attribute per key, or a
task failed and the process called `sys.exit(1)`, freezing the attributes
set so far. -/
inductive BatchOutcome where
  | completed (cache : List (String × Payload))
  | exitedWithFailure (attr : String) (path : String) (cause : DecodeFailure)
      (cacheAtExit : List (String × Payload))
deriving DecidableEq

/-- The `as_completed` loop of source lines 83-91, processing completions in
the given order: on success, `setattr` the decoded payload and print the
success line; on the first failure, print the failure diagnostic and call
`sys.exit(1)`.  Returns the printed lines and the outcome. -/
def completionLoop (fs : FileSystem) :
    List (String × String) → List (String × Payload) → List String →
    List String × BatchOutcome
  | [], acc, msgs => (msgs, .completed acc)
  | (path, attr) :: rest, acc, msgs =>
    match load_single_dictionary fs path with
    | .ok d =>
        completionLoop fs rest (acc ++ [(attr, d)]) (msgs ++ [successDiag path])
    | .error e => (msgs ++ [failDiag path e], .exitedWithFailure attr path e acc)

/-- `DictionaryLoader._load_all_dictionaries` (source lines 58-94) under a
given completion order: submit every task, then run the completion loop.
`as_completed` yields futures in an arbitrary order, so the order is a
parameter ranging over permutations of the registry. -/
def loadAllDictionaries (fs : FileSystem) (order : List (String × String)) :
    List String × BatchOutcome :=
  completionLoop fs order [] []

/-- The set of paths whose decode task actually executes during a batch run.
Every submitted task runs: when `sys.exit(1)` is raised inside the `with
ThreadPoolExecutor` block (source line 91), the context manager calls
`shutdown(wait=True)`, which waits for all running futures and does not
cancel queued ones, so sibling decodes keep running even after a completion
has already failed; no cancellation is ever requested. -/
def executedPaths (order : List (String × String)) : List String :=
  order.map (fun t => t.1)

/-- State of a constructed loader: `loaded` is the `_loaded` flag (source
lines 14, 24, 27), `cache` holds the per-key attributes set by the
completion loop. -/
structure LoaderState where
  loaded : Bool
  cache : List (String × Payload)
deriving DecidableEq

/-- Result of running `loader = DictionaryLoader()` (source line 147): the
process either terminated via `sys.exit` with the given status before the
constructor returned, or the constructor returned a fully initialized
loader. -/
inductive InitResult where
  | exited (code : Nat)
  | ready (st : LoaderState)
deriving DecidableEq

/-- `DictionaryLoader._initialize` as executed at module import (source
lines 22-27 and 147): run the batch; when it completes, set `_loaded = True`
and return the instance; when any task failed, the process has exited with
status 1 and the module-level accessors of lines 148-158 never run. -/
def loaderInit (fs : FileSystem) (order : List (String × String)) : InitResult :=
  match (loadAllDictionaries fs order).2 with
  | .completed c => .ready { loaded := true, cache := c }
  | .exitedWithFailure _ _ _ _ => .exited 1

/-- Attribute lookup on the instance dictionary: the first binding of the
key, `none` when the attribute was never set. -/
def lookupKey : List (String × Payload) → String → Option Payload
  | [], _ => none
  | (k, v) :: rest, key => if k = key then some v else lookupKey rest key

/-- Errors of the cache read interface named by the spec: `notReady` before
initialization has completed, `unknownKey` for a key never declared in the
registry. -/
inductive GetError where
  | notReady
  | unknownKey
deriving DecidableEq

/-- The spec-level `get(logicalKey)` accessor realized over the code: module
consumers read `loader.<key>` (source lines 148-158), which can only happen
once the constructor has returned; when the process exited during
initialization no consumer observation exists at all, rendered here as
`notReady`, and on a returned but unloaded instance the read likewise
precedes readiness. -/
def cacheGet (r : InitResult) (key : String) : Except GetError Payload :=
  match r with
  | .exited _ => .error .notReady
  | .ready st =>
    if st.loaded then
      match lookupKey st.cache key with
      | some d => .ok d
      | none => .error .unknownKey
    else .error .notReady

/-- `DictionaryLoader.all_dictionaries` (source lines 119-134): the bulk
snapshot, one entry per declared key, each read from the corresponding
instance attribute. -/
def all_dictionaries (c : List (String × Payload)) : List (String × Option Payload) :=
  dictionaryKeys.map (fun k => (k, lookupKey c k))

/-- The decode result of one path as an optional payload. -/
def decodeOpt (fs : FileSystem) (path : String) : Option Payload :=
  match load_single_dictionary fs path with
  | .ok d => some d
  | .error _ => none

/-- Total version of `decodeOpt` used to state the shape of a successful
batch; on the success paths it always equals the decoded payload. -/
def decodedOrDefault (fs : FileSystem) (path : String) : Payload :=
  (decodeOpt fs path).getD []

/-- The two artifact formats of the spec data model. -/
inductive ArtifactFormat where
  | raw
  | compressed
deriving DecidableEq

/-- Modelled from the spec (section 6): the declared format of an artifact
path, signaled by its file extension - the `.pbz2` convention signals the
Compressed format, the `.pickle` convention signals Raw. -/
def declaredFormat (path : String) : ArtifactFormat :=
  if pyEndswith path (".pbz2") then .compressed else .raw

/-- A filesystem where every path holds a readable file whose bytes decode to
the empty mapping under both deserializers. -/
def fsUnit : FileSystem := fun _ => some ⟨true, some [], some []⟩

/-- A filesystem where the first registry artifact (under base directory
`"d"`) has been removed and every other path decodes fine. -/
def fsFirstMissing : FileSystem := fun p =>
  if p = LABEL_FILE_PATH ("d") then none else some ⟨true, some [], some []⟩

/-- Program counter of one thread inside `DictionaryLoader.__new__` (source
lines 16-20).  `atCheck`: about to evaluate the `cls._instance is None` test
of line 17.  `atCreate`: the test observed `None`; the thread is about to
execute lines 18-19, which create a fresh instance, publish it in
`cls._instance`, and run `_initialize` - a full load of every artifact, since
the fresh instance reads the class attribute `_loaded = False`.  `done r`:
the thread returned `cls._instance` (line 20), whose value was `r`. -/
inductive NewPC where
  | atCheck
  | atCreate
  | done (ret : Option Nat)
deriving DecidableEq

/-- Shared state of the unsynchronized singleton constructor: the
`cls._instance` slot (instances are numbered in creation order), how many
full initializations (one complete read of every artifact) have run, and the
program counter of each thread executing `DictionaryLoader()`. -/
structure SingletonState where
  instanceSlot : Option Nat
  fullLoads : Nat
  threads : List NewPC
deriving DecidableEq

/-- One interleaving step of `DictionaryLoader.__new__`: advance thread `i`.
The check of line 17 reads `cls._instance`; the create step of lines 18-19
publishes a fresh instance and performs a full load; a finished thread makes
no further moves.  There is no lock anywhere in source lines 16-27, so any
interleaving of these steps is possible. -/
def stepThread (s : SingletonState) (i : Nat) : SingletonState :=
  match s.threads.get? i with
  | none => s
  | some pc =>
    match pc with
    | .atCheck =>
        match s.instanceSlot with
        | none => { s with threads := s.threads.set i (.atCreate) }
        | some j => { s with threads := s.threads.set i (.done (some j)) }
    | .atCreate =>
        { instanceSlot := some s.fullLoads, fullLoads := s.fullLoads + 1,
          threads := s.threads.set i (.done (some s.fullLoads)) }
    | .done _ => s

/-- Run a schedule: the sequence of thread indices chosen by the scheduler. -/
def runSchedule (sched : List Nat) (s : SingletonState) : SingletonState :=
  sched.foldl stepThread s

/-- Two threads racing to construct the loader against the same empty
singleton slot. -/
def initialSingleton : SingletonState :=
  { instanceSlot := none, fullLoads := 0, threads := [.atCheck, .atCheck] }

/-! ### Helper lemmas about suffix dispatch under an arbitrary base directory -/

theorem pyEndswith_iff (s suf : String) : pyEndswith s suf = true ↔ suf.data <:+ s.data := by
  simp [pyEndswith]

theorem pyEndswith_append_right (b t s : String) (h : pyEndswith t s = true) :
    pyEndswith (b ++ t) s = true := by
  rw [pyEndswith_iff] at h ⊢
  rw [String.data_append]
  exact h.trans (List.suffix_append b.data t.data)

theorem pyEndswith_append_right_neg (b t s : String)
    (hlen : s.data.length ≤ t.data.length) (h : pyEndswith t s = false) :
    pyEndswith (b ++ t) s = false := by
  rw [Bool.eq_false_iff] at h ⊢
  intro hc
  apply h
  rw [pyEndswith_iff] at hc ⊢
  rw [String.data_append] at hc
  rcases List.suffix_or_suffix_of_suffix hc (List.suffix_append b.data t.data) with hst | hts
  · exact hst
  · rw [hts.eq_of_length_le hlen]

/-! ### Normal forms of the registry paths -/

theorem LABEL_FILE_PATH_eq (base : String) :
    LABEL_FILE_PATH base = base ++ ("/yago/yago-wd-labels_dict.pickle") := by
  simp only [LABEL_FILE_PATH, YAGO_PATH, ospJoin, String.append_assoc]
  rfl

theorem TYPE_FILE_PATH_eq (base : String) :
    TYPE_FILE_PATH base = base ++ ("/yago/yago-wd-full-types_dict.pickle") := by
  simp only [TYPE_FILE_PATH, YAGO_PATH, ospJoin, String.append_assoc]
  rfl

theorem CLASS_FILE_PATH_eq (base : String) :
    CLASS_FILE_PATH base = base ++ ("/yago/yago-wd-class_dict.pickle") := by
  simp only [CLASS_FILE_PATH, YAGO_PATH, ospJoin, String.append_assoc]
  rfl

theorem FACT_FILE_PATH_eq (base : String) :
    FACT_FILE_PATH base = base ++ ("/yago/yago-wd-facts_dict.pickle") := by
  simp only [FACT_FILE_PATH, YAGO_PATH, ospJoin, String.append_assoc]
  rfl

theorem YAGO_MAIN_INVERTED_INDEX_PATH_eq (base : String) :
    YAGO_MAIN_INVERTED_INDEX_PATH base =
      base ++ ("/santos/hashmap/dialite_datalake_main_yago_index.pickle") := by
  simp only [YAGO_MAIN_INVERTED_INDEX_PATH, ospJoin, String.append_assoc]
  rfl

theorem YAGO_MAIN_RELATION_INDEX_PATH_eq (base : String) :
    YAGO_MAIN_RELATION_INDEX_PATH base =
      base ++ ("/santos/hashmap/dialite_datalake_main_relation_index.pickle") := by
  simp only [YAGO_MAIN_RELATION_INDEX_PATH, ospJoin, String.append_assoc]
  rfl

theorem YAGO_MAIN_PICKLE_TRIPLE_INDEX_PATH_eq (base : String) :
    YAGO_MAIN_PICKLE_TRIPLE_INDEX_PATH base =
      base ++ ("/santos/hashmap/dialite_datalake_main_triple_index.pickle") := by
  simp only [YAGO_MAIN_PICKLE_TRIPLE_INDEX_PATH, ospJoin, String.append_assoc]
  rfl

theorem SYNTH_TYPE_KB_PATH_eq (base : String) :
    SYNTH_TYPE_KB_PATH base =
      base ++ ("/santos/hashmap/dialite_datalake_synth_type_kb.pbz2") := by
  simp only [SYNTH_TYPE_KB_PATH, ospJoin, String.append_assoc]
  rfl

theorem SYNTH_RELATION_KB_PATH_eq (base : String) :
    SYNTH_RELATION_KB_PATH base =
      base ++ ("/santos/hashmap/dialite_datalake_synth_relation_kb.pbz2") := by
  simp only [SYNTH_RELATION_KB_PATH, ospJoin, String.append_assoc]
  rfl

theorem SYNTH_TYPE_INVERTED_INDEX_PATH_eq (base : String) :
    SYNTH_TYPE_INVERTED_INDEX_PATH base =
      base ++ ("/santos/hashmap/dialite_datalake_synth_type_inverted_index.pbz2") := by
  simp only [SYNTH_TYPE_INVERTED_INDEX_PATH, ospJoin, String.append_assoc]
  rfl

theorem SYNTH_RELATION_INVERTED_INDEX_PATH_eq (base : String) :
    SYNTH_RELATION_INVERTED_INDEX_PATH base =
      base ++ ("/santos/hashmap/dialite_datalake_synth_relation_inverted_index.pbz2") := by
  simp only [SYNTH_RELATION_INVERTED_INDEX_PATH, ospJoin, String.append_assoc]
  rfl

/-! ### Dispatch helpers for a path of the shape base ++ tail -/

theorem dispatch_pickle_tail (fs : FileSystem) (b tl : String) (f : FileData)
    (hp : pyEndswith tl (".pickle") = true)
    (hnp : pyEndswith tl (".pbz2") = false)
    (hlen : (".pbz2" : String).data.length ≤ tl.data.length)
    (hfs : fs (b ++ tl) = some f) :
    declaredFormat (b ++ tl) = ArtifactFormat.raw ∧
    pyEndswith (b ++ tl) (".pickle") = true ∧
    load_single_dictionary fs (b ++ tl) = decodeRaw f (b ++ tl) := by
  have h1 : pyEndswith (b ++ tl) (".pickle") = true := pyEndswith_append_right b tl _ hp
  have h2 : pyEndswith (b ++ tl) (".pbz2") = false :=
    pyEndswith_append_right_neg b tl _ hlen hnp
  refine ⟨?_, h1, ?_⟩
  · simp [declaredFormat, h2]
  · simp [load_single_dictionary, hfs, h1]

theorem dispatch_pbz2_tail (fs : FileSystem) (b tl : String) (f : FileData)
    (hp : pyEndswith tl (".pbz2") = true)
    (hnp : pyEndswith tl (".pickle") = false)
    (hlen : (".pickle" : String).data.length ≤ tl.data.length)
    (hfs : fs (b ++ tl) = some f) :
    declaredFormat (b ++ tl) = ArtifactFormat.compressed ∧
    pyEndswith (b ++ tl) (".pbz2") = true ∧
    load_single_dictionary fs (b ++ tl) = decodeCompressed f (b ++ tl) := by
  have h1 : pyEndswith (b ++ tl) (".pbz2") = true := pyEndswith_append_right b tl _ hp
  have h2 : pyEndswith (b ++ tl) (".pickle") = false :=
    pyEndswith_append_right_neg b tl _ hlen hnp
  refine ⟨?_, h1, ?_⟩
  · simp [declaredFormat, h1]
  · simp [load_single_dictionary, hfs, h2]

/-! ### Lemmas about the completion loop -/

theorem completionLoop_all_ok (fs : FileSystem) :
    ∀ (order : List (String × String)) (acc : List (String × Payload))
      (msgs : List String),
      (∀ t ∈ order, (decodeOpt fs t.1).isSome) →
      completionLoop fs order acc msgs =
        (msgs ++ order.map (fun t => successDiag t.1),
         BatchOutcome.completed
           (acc ++ order.map (fun t => (t.2, decodedOrDefault fs t.1))))
  | [], acc, msgs, _ => by simp [completionLoop]
  | (path, attr) :: rest, acc, msgs, h => by
    have hhead : (decodeOpt fs path).isSome := h (path, attr) (by simp)
    cases hload : load_single_dictionary fs path with
    | ok d =>
      have hdec : decodedOrDefault fs path = d := by
        simp [decodedOrDefault, decodeOpt, hload]
      simp only [completionLoop, hload]
      rw [completionLoop_all_ok fs rest (acc ++ [(attr, d)])
            (msgs ++ [successDiag path])
            (fun t ht => h t (by simp [ht]))]
      simp [hdec]
    | error e =>
      exfalso
      rw [decodeOpt, hload] at hhead
      simp at hhead

theorem completionLoop_completed_all_ok (fs : FileSystem) :
    ∀ (order : List (String × String)) (acc : List (String × Payload))
      (msgs msgs2 : List String) (c : List (String × Payload)),
      completionLoop fs order acc msgs = (msgs2, BatchOutcome.completed c) →
      ∀ t ∈ order, (decodeOpt fs t.1).isSome
  | [], _, _, _, _, _ => by simp
  | (path, attr) :: rest, acc, msgs, msgs2, c, h => by
    cases hload : load_single_dictionary fs path with
    | ok d =>
      simp only [completionLoop, hload] at h
      intro t ht
      rcases List.mem_cons.1 ht with rfl | htr
      · simp [decodeOpt, hload]
      · exact completionLoop_completed_all_ok fs rest _ _ _ _ h t htr
    | error e =>
      simp only [completionLoop, hload] at h
      simp at h

theorem completionLoop_exited_cause (fs : FileSystem) :
    ∀ (order : List (String × String)) (acc : List (String × Payload))
      (msgs msgs2 : List String) (a p : String) (e : DecodeFailure)
      (acc2 : List (String × Payload)),
      completionLoop fs order acc msgs = (msgs2, BatchOutcome.exitedWithFailure a p e acc2) →
      load_single_dictionary fs p = Except.error e ∧ (p, a) ∈ order ∧
        failDiag p e ∈ msgs2
  | [], _, _, _, _, _, _, _, h => by simp [completionLoop] at h
  | (path, attr) :: rest, acc, msgs, msgs2, a, p, e, acc2, h => by
    cases hload : load_single_dictionary fs path with
    | ok d =>
      simp only [completionLoop, hload] at h
      obtain ⟨h1, h2, h3⟩ := completionLoop_exited_cause fs rest _ _ _ _ _ _ _ h
      exact ⟨h1, by simp [h2], h3⟩
    | error e0 =>
      simp only [completionLoop, hload, Prod.mk.injEq,
        BatchOutcome.exitedWithFailure.injEq] at h
      obtain ⟨hm, ha, hp, he, hacc⟩ := h
      subst ha hp he
      exact ⟨hload, by simp, by rw [← hm]; simp⟩

theorem completionLoop_exits_of_fail (fs : FileSystem) :
    ∀ (order : List (String × String)) (acc : List (String × Payload))
      (msgs : List String),
      (∃ t ∈ order, decodeOpt fs t.1 = none) →
      ∃ msgs2 a p e acc2,
        completionLoop fs order acc msgs = (msgs2, BatchOutcome.exitedWithFailure a p e acc2)
  | [], _, _, h => by simp at h
  | (path, attr) :: rest, acc, msgs, h => by
    rw [completionLoop]
    cases hload : load_single_dictionary fs path with
    | ok d =>
      apply completionLoop_exits_of_fail fs rest
      obtain ⟨t, ht, htf⟩ := h
      rcases List.mem_cons.1 ht with rfl | htr
      · rw [decodeOpt, hload] at htf; simp at htf
      · exact ⟨t, htr, htf⟩
    | error e => exact ⟨_, _, _, _, _, rfl⟩

/-! ### Lemmas about attribute lookup -/

theorem lookupKey_not_mem :
    ∀ (c : List (String × Payload)) (k : String),
      k ∉ c.map Prod.fst → lookupKey c k = none
  | [], _, _ => rfl
  | (k0, v) :: rest, k, h => by
    simp only [List.map_cons, List.mem_cons, not_or] at h
    rw [lookupKey, if_neg (Ne.symm h.1), lookupKey_not_mem rest k h.2]

theorem lookupKey_map_tasks (fs : FileSystem) :
    ∀ (order : List (String × String)) (p k : String),
      (p, k) ∈ order → (order.map (fun t => t.2)).Nodup →
      lookupKey (order.map (fun t => (t.2, decodedOrDefault fs t.1))) k =
        some (decodedOrDefault fs p)
  | [], _, _, hmem, _ => by simp at hmem
  | (p0, k0) :: rest, p, k, hmem, hnd => by
    simp only [List.map_cons, List.nodup_cons] at hnd
    simp only [List.map_cons, lookupKey]
    rcases List.mem_cons.1 hmem with heq | htr
    · rw [Prod.mk.injEq] at heq
      obtain ⟨hp, hk⟩ := heq
      subst hp hk
      rw [if_pos rfl]
    · by_cases hk : k0 = k
      · exfalso
        subst hk
        exact hnd.1 (List.mem_map.2 ⟨(p, k0), htr, rfl⟩)
      · rw [if_neg hk]
        exact lookupKey_map_tasks fs rest p k htr hnd.2

/-! ### Registry key facts -/

theorem load_tasks_keys (base : String) :
    (load_tasks base).map (fun t => t.2) = dictionaryKeys := rfl

theorem dictionaryKeys_nodup : dictionaryKeys.Nodup := by decide

theorem load_tasks_length (base : String) : (load_tasks base).length = 11 := rfl

/-- Characterization of a completed batch: the cache is the per-task decoded
map and every task decoded successfully. -/
theorem loadAll_snd_completed (fs : FileSystem) (order : List (String × String))
    (c : List (String × Payload))
    (hok : (loadAllDictionaries fs order).2 = BatchOutcome.completed c) :
    c = order.map (fun t => (t.2, decodedOrDefault fs t.1)) ∧
    ∀ t ∈ order, (decodeOpt fs t.1).isSome := by
  have hfull : completionLoop fs order [] [] =
      ((loadAllDictionaries fs order).1, BatchOutcome.completed c) := by
    rw [← hok]
    rfl
  have hallok := completionLoop_completed_all_ok fs order [] []
      (loadAllDictionaries fs order).1 c hfull
  have hcomp := completionLoop_all_ok fs order [] [] hallok
  rw [hcomp] at hfull
  simp only [Prod.mk.injEq, BatchOutcome.completed.injEq, List.nil_append] at hfull
  exact ⟨hfull.2.symm, hallok⟩

/-- Key nodup transfers to any completion order. -/
theorem order_keys_nodup (base : String) (order : List (String × String))
    (hperm : order.Perm (load_tasks base)) :
    (order.map (fun t => t.2)).Nodup :=
  (hperm.map (fun t => t.2)).nodup_iff.2
    (by rw [load_tasks_keys]; exact dictionaryKeys_nodup)

/-!
### The claims
-/

/-- C1: Fail-fast batch semantics: in every run of the parallel load (any
completion order of the eleven registry tasks) in which at least one decode
task fails, the whole batch is treated as failed: the loop exits carrying
only an aggregate failure record naming the failing artifact, its path and
its underlying cause; the constructor never returns a loader, the process
exits with status 1, so `Ready` is never reached and no partial result is
handed to any caller - `get` on any key fails with `NotReady`. -/
theorem fail_fast_batch (fs : FileSystem) (base : String)
    (order : List (String × String)) (hperm : order.Perm (load_tasks base))
    (hfail : ∃ t ∈ order, decodeOpt fs t.1 = none) :
    (∃ msgs a p e acc,
        loadAllDictionaries fs order = (msgs, BatchOutcome.exitedWithFailure a p e acc) ∧
        (p, a) ∈ order ∧ load_single_dictionary fs p = Except.error e) ∧
    loaderInit fs order = InitResult.exited 1 ∧
    ∀ key, cacheGet (loaderInit fs order) key = Except.error GetError.notReady := by
  obtain ⟨msgs2, a, p, e, acc2, hexit⟩ := completionLoop_exits_of_fail fs order [] [] hfail
  obtain ⟨hcause, hmem, hdiag⟩ :=
    completionLoop_exited_cause fs order [] [] msgs2 a p e acc2 hexit
  have hinit : loaderInit fs order = InitResult.exited 1 := by
    simp only [loaderInit, loadAllDictionaries, hexit]
  refine ⟨⟨msgs2, a, p, e, acc2, hexit, hmem, hcause⟩, hinit, fun key => ?_⟩
  rw [hinit]
  rfl

/-- Witness for C1: with every artifact file absent and the registry rooted
at base directory `d`, construction exits with status 1 and `get` on the
first key reports `NotReady`. -/
theorem fail_fast_batch_witness :
    loaderInit (fun _ => none) (load_tasks ("d")) = InitResult.exited 1 ∧
    cacheGet (loaderInit (fun _ => none) (load_tasks ("d"))) ("label_dict") =
      Except.error GetError.notReady :=
  ⟨(fail_fast_batch (fun _ => none) ("d") (load_tasks ("d")) (List.Perm.refl _)
      ⟨(LABEL_FILE_PATH ("d"), ("label_dict")), by decide, by decide⟩).2.1,
   (fail_fast_batch (fun _ => none) ("d") (load_tasks ("d")) (List.Perm.refl _)
      ⟨(LABEL_FILE_PATH ("d"), ("label_dict")), by decide, by decide⟩).2.2 ("label_dict")⟩

/-- C2: Full-population visibility invariant: a consumer observation is the
result of the module-level construction (the accessors of source lines
148-158 run only once the constructor has returned).  Whenever that result
is a loader, the loader is marked loaded and holds a payload for every one
of the eleven declared logical keys, and `get` succeeds on each of them;
whenever the process exited during initialization, no reader observes any
cache at all (`get` on every key yields `NotReady`).  In no run does any
observation of a partially populated cache exist. -/
theorem full_population_visibility (fs : FileSystem) (base : String)
    (order : List (String × String)) (hperm : order.Perm (load_tasks base)) :
    (∀ st, loaderInit fs order = InitResult.ready st →
        st.loaded = true ∧
        ∀ t ∈ load_tasks base, ∃ d, lookupKey st.cache t.2 = some d ∧
          cacheGet (loaderInit fs order) t.2 = Except.ok d) ∧
    (∀ code, loaderInit fs order = InitResult.exited code →
        ∀ key, cacheGet (loaderInit fs order) key = Except.error GetError.notReady) := by
  constructor
  · intro st hst
    cases hbatch : (loadAllDictionaries fs order).2 with
    | completed c =>
      have hstc : st = ⟨true, c⟩ := by
        simp only [loaderInit, hbatch, InitResult.ready.injEq] at hst
        exact hst.symm
      obtain ⟨hc, -⟩ := loadAll_snd_completed fs order c hbatch
      have hnd := order_keys_nodup base order hperm
      subst hstc
      refine ⟨rfl, fun t ht => ?_⟩
      obtain ⟨p, k⟩ := t
      have hmem : (p, k) ∈ order := hperm.mem_iff.2 ht
      have hlook : lookupKey c k = some (decodedOrDefault fs p) := by
        rw [hc]
        exact lookupKey_map_tasks fs order p k hmem hnd
      refine ⟨decodedOrDefault fs p, hlook, ?_⟩
      rw [hst]
      simp [cacheGet, hlook]
    | exitedWithFailure a p e acc =>
      exfalso
      simp only [loaderInit, hbatch] at hst
      exact InitResult.noConfusion hst
  · intro code hc key
    rw [hc]
    rfl

/-- Witness for C2: with every artifact file absent, the observation on any
key is `NotReady`: no partially populated cache is seen. -/
theorem full_population_visibility_witness :
    cacheGet (loaderInit (fun _ => none) (load_tasks ("d"))) ("type_dict") =
      Except.error GetError.notReady :=
  (full_population_visibility (fun _ => none) ("d") (load_tasks ("d"))
      (List.Perm.refl _)).2 1 (by decide) ("type_dict")

/-- C3: the claim requires that on the first decode failure the loader
signals the in-flight sibling tasks to stop promptly and that the batch call
returns only after cancellation has been requested.  The code does not do
this: `sys.exit(1)` at source line 91 raises through the `with
ThreadPoolExecutor` block, whose context manager calls `shutdown(wait=True)`
without cancelling queued futures, so every submitted sibling decode still
runs to completion and no cancellation is ever requested (see
`executedPaths`).  Concretely: with the first registry artifact missing and
its failure completing first, the batch fails immediately, yet all eleven
submitted decode tasks execute - the ten queued siblings keep running after
the failure has been reported.  The one part of the claim the code does
honor is that no task mutates the attribute cache after the failure: the
frozen attribute set here is empty. -/
theorem no_cancellation_after_failure :
    (loadAllDictionaries fsFirstMissing (load_tasks ("d"))).2 =
      BatchOutcome.exitedWithFailure ("label_dict") (LABEL_FILE_PATH ("d"))
        (DecodeFailure.missingArtifact (LABEL_FILE_PATH ("d"))) [] ∧
    executedPaths (load_tasks ("d")) = (load_tasks ("d")).map (fun t => t.1) ∧
    (executedPaths (load_tasks ("d"))).length = 11 := by
  refine ⟨by decide, rfl, by decide⟩

/-- C4: the claim requires initialization to run at most once per process
with every caller observing the same final state, even when callers race on
the same empty cache.  The code has no synchronization guard around
`DictionaryLoader.__new__`: in the interleaving where both threads evaluate
the `cls._instance is None` test of source line 17 before either assigns,
each thread then creates its own instance and runs a full `_initialize`, so
two complete loads occur - every artifact file is read twice - and the two
callers return different instances. -/
theorem singleton_race_double_load :
    (runSchedule [0, 1, 0, 1] initialSingleton).fullLoads = 2 ∧
    (runSchedule [0, 1, 0, 1] initialSingleton).threads =
      [NewPC.done (some 0), NewPC.done (some 1)] ∧
    NewPC.done (some 0) ≠ NewPC.done (some 1) := by decide

/-- One registry case of the dispatch claim: a path with a `.pickle` tail is
declared Raw and decoded by the raw codec, and the Compressed premise is
vacuous for it. -/
theorem codec_case_pickle (fs : FileSystem) (b tl : String) (f : FileData)
    (hp : pyEndswith tl (".pickle") = true)
    (hnp : pyEndswith tl (".pbz2") = false)
    (hlen : (".pbz2" : String).data.length ≤ tl.data.length)
    (hfs : fs (b ++ tl) = some f) :
    (declaredFormat (b ++ tl) = ArtifactFormat.raw →
      pyEndswith (b ++ tl) (".pickle") = true ∧
      load_single_dictionary fs (b ++ tl) = decodeRaw f (b ++ tl)) ∧
    (declaredFormat (b ++ tl) = ArtifactFormat.compressed →
      pyEndswith (b ++ tl) (".pbz2") = true ∧
      load_single_dictionary fs (b ++ tl) = decodeCompressed f (b ++ tl)) := by
  obtain ⟨hdf, hPick, hLoad⟩ := dispatch_pickle_tail fs b tl f hp hnp hlen hfs
  refine ⟨fun _ => ⟨hPick, hLoad⟩, fun hc => ?_⟩
  rw [hdf] at hc
  simp at hc

/-- One registry case of the dispatch claim: a path with a `.pbz2` tail is
declared Compressed and decoded by the decompress-then-deserialize codec,
and the Raw premise is vacuous for it. -/
theorem codec_case_pbz2 (fs : FileSystem) (b tl : String) (f : FileData)
    (hp : pyEndswith tl (".pbz2") = true)
    (hnp : pyEndswith tl (".pickle") = false)
    (hlen : (".pickle" : String).data.length ≤ tl.data.length)
    (hfs : fs (b ++ tl) = some f) :
    (declaredFormat (b ++ tl) = ArtifactFormat.raw →
      pyEndswith (b ++ tl) (".pickle") = true ∧
      load_single_dictionary fs (b ++ tl) = decodeRaw f (b ++ tl)) ∧
    (declaredFormat (b ++ tl) = ArtifactFormat.compressed →
      pyEndswith (b ++ tl) (".pbz2") = true ∧
      load_single_dictionary fs (b ++ tl) = decodeCompressed f (b ++ tl)) := by
  obtain ⟨hdf, hBz, hLoad⟩ := dispatch_pbz2_tail fs b tl f hp hnp hlen hfs
  refine ⟨fun hc => ?_, fun _ => ⟨hBz, hLoad⟩⟩
  rw [hdf] at hc
  simp at hc

/-- C5: Codec format dispatch: for every registry artifact path, under any
configured base directory, if the declared format is Raw - signaled by the
fixed `.pickle` extension - the codec reads the file and deserializes its
bytes directly, and if the declared format is Compressed - signaled by the
fixed `.pbz2` extension - the codec decompresses the byte stream and then
deserializes the decompressed bytes. -/
theorem codec_format_dispatch (fs : FileSystem) (base : String) (f : FileData) :
    ∀ t ∈ load_tasks base, fs t.1 = some f →
      (declaredFormat t.1 = ArtifactFormat.raw →
        pyEndswith t.1 (".pickle") = true ∧
        load_single_dictionary fs t.1 = decodeRaw f t.1) ∧
      (declaredFormat t.1 = ArtifactFormat.compressed →
        pyEndswith t.1 (".pbz2") = true ∧
        load_single_dictionary fs t.1 = decodeCompressed f t.1) := by
  intro t ht hfs
  simp only [load_tasks, List.mem_cons, List.not_mem_nil, or_false] at ht
  rcases ht with rfl | rfl | rfl | rfl | rfl | rfl | rfl | rfl | rfl | rfl | rfl
  · rw [LABEL_FILE_PATH_eq] at hfs ⊢
    exact codec_case_pickle fs base _ f (by decide) (by decide) (by decide) hfs
  · rw [TYPE_FILE_PATH_eq] at hfs ⊢
    exact codec_case_pickle fs base _ f (by decide) (by decide) (by decide) hfs
  · rw [CLASS_FILE_PATH_eq] at hfs ⊢
    exact codec_case_pickle fs base _ f (by decide) (by decide) (by decide) hfs
  · rw [FACT_FILE_PATH_eq] at hfs ⊢
    exact codec_case_pickle fs base _ f (by decide) (by decide) (by decide) hfs
  · rw [YAGO_MAIN_INVERTED_INDEX_PATH_eq] at hfs ⊢
    exact codec_case_pickle fs base _ f (by decide) (by decide) (by decide) hfs
  · rw [YAGO_MAIN_RELATION_INDEX_PATH_eq] at hfs ⊢
    exact codec_case_pickle fs base _ f (by decide) (by decide) (by decide) hfs
  · rw [YAGO_MAIN_PICKLE_TRIPLE_INDEX_PATH_eq] at hfs ⊢
    exact codec_case_pickle fs base _ f (by decide) (by decide) (by decide) hfs
  · rw [SYNTH_TYPE_KB_PATH_eq] at hfs ⊢
    exact codec_case_pbz2 fs base _ f (by decide) (by decide) (by decide) hfs
  · rw [SYNTH_RELATION_KB_PATH_eq] at hfs ⊢
    exact codec_case_pbz2 fs base _ f (by decide) (by decide) (by decide) hfs
  · rw [SYNTH_TYPE_INVERTED_INDEX_PATH_eq] at hfs ⊢
    exact codec_case_pbz2 fs base _ f (by decide) (by decide) (by decide) hfs
  · rw [SYNTH_RELATION_INVERTED_INDEX_PATH_eq] at hfs ⊢
    exact codec_case_pbz2 fs base _ f (by decide) (by decide) (by decide) hfs

/-- Witness for C5: the first registry artifact, a `.pickle` path, is sent
to the raw decoder on a filesystem where it exists. -/
theorem codec_format_dispatch_witness :
    load_single_dictionary (fun _ => some ⟨true, some [], some []⟩)
        (LABEL_FILE_PATH ("d")) =
      decodeRaw ⟨true, some [], some []⟩ (LABEL_FILE_PATH ("d")) :=
  ((codec_format_dispatch (fun _ => some ⟨true, some [], some []⟩) ("d")
      ⟨true, some [], some []⟩ (LABEL_FILE_PATH ("d"), ("label_dict"))
      (by decide) rfl).1 (by decide)).2

/-- C6: Codec error taxonomy and propagation: for every filesystem and path,
the single-artifact decode fails with `MissingArtifact` exactly when the
path does not exist; when the file exists, it fails with `IOError` exactly
when the bytes cannot be read, and with `DecodeError` exactly when the bytes
are readable but the deserializer selected by the extension cannot decode
them; and no failure is recovered locally: whenever the batch loop exits
with a failure record, the recorded cause is exactly the error produced by
the failing decode, propagated unchanged to the batch boundary. -/
theorem codec_error_taxonomy (fs : FileSystem) (path : String) :
    (load_single_dictionary fs path =
        Except.error (DecodeFailure.missingArtifact path) ↔ fs path = none) ∧
    (∀ f, fs path = some f →
      (load_single_dictionary fs path = Except.error (DecodeFailure.ioError path) ↔
        f.readable = false)) ∧
    (∀ f, fs path = some f →
      (load_single_dictionary fs path = Except.error (DecodeFailure.decodeError path) ↔
        f.readable = true ∧
        (if pyEndswith path (".pickle") then f.rawPickleContent
         else f.bz2PickleContent) = none)) ∧
    (∀ (order : List (String × String)) (msgs : List String) (a p : String)
        (e : DecodeFailure) (acc : List (String × Payload)),
      loadAllDictionaries fs order = (msgs, BatchOutcome.exitedWithFailure a p e acc) →
      load_single_dictionary fs p = Except.error e) := by
  refine ⟨?_, ?_, ?_, ?_⟩
  · cases hfs : fs path with
    | none => simp [load_single_dictionary, hfs]
    | some f =>
      obtain ⟨r, rc, bc⟩ := f
      cases r <;> rcases rc with _ | v <;> rcases bc with _ | w <;>
        cases hpe : pyEndswith path (".pickle") <;>
        simp [load_single_dictionary, hfs, decodeRaw, decodeCompressed, hpe]
  · intro f hfs
    obtain ⟨r, rc, bc⟩ := f
    cases r <;> rcases rc with _ | v <;> rcases bc with _ | w <;>
      cases hpe : pyEndswith path (".pickle") <;>
      simp [load_single_dictionary, hfs, decodeRaw, decodeCompressed, hpe]
  · intro f hfs
    obtain ⟨r, rc, bc⟩ := f
    cases r <;> rcases rc with _ | v <;> rcases bc with _ | w <;>
      cases hpe : pyEndswith path (".pickle") <;>
      simp [load_single_dictionary, hfs, decodeRaw, decodeCompressed, hpe]
  · intro order msgs a p e acc h
    exact (completionLoop_exited_cause fs order [] [] msgs a p e acc h).1

/-- Witness for C6: on a filesystem with no files, the decode of a path
fails with `MissingArtifact`, and on a filesystem holding an unreadable
file, it fails with `IOError`. -/
theorem codec_error_taxonomy_witness :
    load_single_dictionary (fun _ => none) ("x") =
      Except.error (DecodeFailure.missingArtifact ("x")) ∧
    load_single_dictionary (fun _ => some ⟨false, some [], some []⟩) ("x") =
      Except.error (DecodeFailure.ioError ("x")) :=
  ⟨(codec_error_taxonomy (fun _ => none) ("x")).1.mpr rfl,
   ((codec_error_taxonomy (fun _ => some ⟨false, some [], some []⟩) ("x")).2.1
      ⟨false, some [], some []⟩ rfl).mpr rfl⟩

/-- C10: Implicit suffix-only dispatch with no unknown-format branch: for
every existing path the decoder is chosen purely from the filename suffix -
a path ending in `.pickle` is decoded as a raw pickle and every other
existing path, whatever its extension, is attempted as a bz2-compressed
pickle; for a readable file whose bytes are not a valid compressed pickle
this yields a decode error, so an artifact with an unexpected extension is
never rejected up front. -/
theorem suffix_only_dispatch (fs : FileSystem) (path : String) (f : FileData)
    (hfs : fs path = some f) :
    (pyEndswith path (".pickle") = true →
      load_single_dictionary fs path = decodeRaw f path) ∧
    (pyEndswith path (".pickle") = false →
      load_single_dictionary fs path = decodeCompressed f path ∧
      (f.readable = true → f.bz2PickleContent = none →
        load_single_dictionary fs path =
          Except.error (DecodeFailure.decodeError path))) := by
  constructor
  · intro h
    simp [load_single_dictionary, hfs, h]
  · intro h
    have hd : load_single_dictionary fs path = decodeCompressed f path := by
      simp [load_single_dictionary, hfs, h]
    refine ⟨hd, fun hr hb => ?_⟩
    rw [hd]
    simp [decodeCompressed, hr, hb]

/-- Witness for C10: a path with the unexpected extension `.json`, holding
bytes that are not a valid compressed pickle, is attempted as Compressed and
fails with a decode error - it is not rejected up front. -/
theorem suffix_only_dispatch_witness :
    load_single_dictionary (fun _ => some ⟨true, some [], none⟩) ("weird.json") =
      Except.error (DecodeFailure.decodeError ("weird.json")) :=
  (((suffix_only_dispatch (fun _ => some ⟨true, some [], none⟩) ("weird.json")
      ⟨true, some [], none⟩ rfl).2 (by decide)).2) rfl rfl

/-- C7: Completion-order independence and decode determinism: each decoded
payload is a function of the filesystem contents at the artifact path and of
the extension-selected deserializer alone (`decodedOrDefault fs path`),
never of completion order or of which worker processed it; and for any two
completion orders of the registry, when one run completes, the other run
also completes and the two final caches agree on the payload of every
key. -/
theorem completion_order_independence (fs : FileSystem) (base : String)
    (o1 o2 : List (String × String)) (h1 : o1.Perm (load_tasks base))
    (h2 : o2.Perm (load_tasks base)) (c1 : List (String × Payload))
    (hok : (loadAllDictionaries fs o1).2 = BatchOutcome.completed c1) :
    ∃ c2, (loadAllDictionaries fs o2).2 = BatchOutcome.completed c2 ∧
      (∀ key, lookupKey c1 key = lookupKey c2 key) ∧
      (∀ t ∈ load_tasks base, lookupKey c1 t.2 = some (decodedOrDefault fs t.1)) := by
  obtain ⟨hc1, hallok1⟩ := loadAll_snd_completed fs o1 c1 hok
  have htasksok : ∀ t ∈ load_tasks base, (decodeOpt fs t.1).isSome :=
    fun t ht => hallok1 t (h1.mem_iff.2 ht)
  have hallok2 : ∀ t ∈ o2, (decodeOpt fs t.1).isSome :=
    fun t ht => htasksok t (h2.mem_iff.1 ht)
  have hcomp2 := completionLoop_all_ok fs o2 [] [] hallok2
  have hnd1 := order_keys_nodup base o1 h1
  have hnd2 := order_keys_nodup base o2 h2
  have hmapeq : ∀ (o : List (String × String)),
      (o.map (fun t => (t.2, decodedOrDefault fs t.1))).map Prod.fst =
        o.map (fun t => t.2) := by
    intro o
    rw [List.map_map]
    rfl
  refine ⟨o2.map (fun t => (t.2, decodedOrDefault fs t.1)), ?_, ?_, ?_⟩
  · simp only [loadAllDictionaries, hcomp2, List.nil_append]
  · intro key
    rw [hc1]
    by_cases hk : key ∈ dictionaryKeys
    · rw [← load_tasks_keys base] at hk
      obtain ⟨t, ht, htk⟩ := List.mem_map.1 hk
      obtain ⟨p, k⟩ := t
      cases htk
      rw [lookupKey_map_tasks fs o1 p k (h1.mem_iff.2 ht) hnd1,
          lookupKey_map_tasks fs o2 p k (h2.mem_iff.2 ht) hnd2]
    · have hn1 : key ∉ ((o1.map (fun t => (t.2, decodedOrDefault fs t.1))).map Prod.fst) := by
        rw [hmapeq]
        intro hc
        exact hk (by rw [← load_tasks_keys base]; exact (h1.map _).mem_iff.1 hc)
      have hn2 : key ∉ ((o2.map (fun t => (t.2, decodedOrDefault fs t.1))).map Prod.fst) := by
        rw [hmapeq]
        intro hc
        exact hk (by rw [← load_tasks_keys base]; exact (h2.map _).mem_iff.1 hc)
      rw [lookupKey_not_mem _ _ hn1, lookupKey_not_mem _ _ hn2]
  · intro t ht
    obtain ⟨p, k⟩ := t
    rw [hc1]
    exact lookupKey_map_tasks fs o1 p k (h1.mem_iff.2 ht) hnd1

/-- Witness for C7: on a filesystem where every artifact decodes to the
empty mapping, the registry order and its reverse complete with caches that
agree everywhere. -/
theorem completion_order_independence_witness :
    ∃ c2, (loadAllDictionaries fsUnit ((load_tasks ("d")).reverse)).2 =
        BatchOutcome.completed c2 ∧
      (∀ key, lookupKey ((load_tasks ("d")).map
          (fun t => (t.2, decodedOrDefault fsUnit t.1))) key = lookupKey c2 key) ∧
      (∀ t ∈ load_tasks ("d"), lookupKey ((load_tasks ("d")).map
          (fun t => (t.2, decodedOrDefault fsUnit t.1))) t.2 =
        some (decodedOrDefault fsUnit t.1)) :=
  completion_order_independence fsUnit ("d") (load_tasks ("d"))
    ((load_tasks ("d")).reverse) (List.Perm.refl _) (List.reverse_perm _)
    ((load_tasks ("d")).map (fun t => (t.2, decodedOrDefault fsUnit t.1)))
    (by decide)

/-- C8: Registry completeness: the registry declares exactly eleven
artifacts - the four knowledge-base tables, the three primary indices and
the four synthetic counterparts - with pairwise-distinct logical keys, each
resolved to a path under the configured base directory; and in every run
whose batch completes, the resulting cache holds exactly one entry per
declared key, and the bulk accessor returns a snapshot whose keys are
exactly the eleven declared keys, each carrying a payload. -/
theorem registry_completeness (fs : FileSystem) (base : String)
    (order : List (String × String)) (c : List (String × Payload))
    (hperm : order.Perm (load_tasks base))
    (hok : (loadAllDictionaries fs order).2 = BatchOutcome.completed c) :
    (load_tasks base).length = 11 ∧
    (load_tasks base).map (fun t => t.2) = dictionaryKeys ∧
    dictionaryKeys.Nodup ∧
    (∀ t ∈ load_tasks base, ∃ rest, t.1 = base ++ ("/") ++ rest) ∧
    (c.map Prod.fst).Perm dictionaryKeys ∧
    (∀ k ∈ dictionaryKeys, (c.map Prod.fst).count k = 1) ∧
    (∀ t ∈ load_tasks base, ∃ d, lookupKey c t.2 = some d) ∧
    (all_dictionaries c).map Prod.fst = dictionaryKeys ∧
    (all_dictionaries c).length = 11 ∧
    (∀ pr ∈ all_dictionaries c, ∃ d, pr.2 = some d) := by
  obtain ⟨hc, -⟩ := loadAll_snd_completed fs order c hok
  have hnd := order_keys_nodup base order hperm
  have hkeysperm : (c.map Prod.fst).Perm dictionaryKeys := by
    rw [hc, List.map_map]
    have : (Prod.fst ∘ fun t : String × String => (t.2, decodedOrDefault fs t.1)) =
        (fun t : String × String => t.2) := rfl
    rw [this, ← load_tasks_keys base]
    exact hperm.map (fun t => t.2)
  have hlook : ∀ t ∈ load_tasks base, lookupKey c t.2 = some (decodedOrDefault fs t.1) := by
    intro t ht
    obtain ⟨p, k⟩ := t
    rw [hc]
    exact lookupKey_map_tasks fs order p k (hperm.mem_iff.2 ht) hnd
  refine ⟨rfl, rfl, dictionaryKeys_nodup, ?_, hkeysperm, ?_, ?_, ?_, ?_, ?_⟩
  · intro t ht
    simp only [load_tasks, List.mem_cons, List.not_mem_nil, or_false] at ht
    rcases ht with rfl | rfl | rfl | rfl | rfl | rfl | rfl | rfl | rfl | rfl | rfl
    · refine ⟨("yago/yago-wd-labels_dict.pickle"), ?_⟩
      show LABEL_FILE_PATH base = base ++ ("/") ++ ("yago/yago-wd-labels_dict.pickle")
      rw [LABEL_FILE_PATH_eq, String.append_assoc]
      rfl
    · refine ⟨("yago/yago-wd-full-types_dict.pickle"), ?_⟩
      show TYPE_FILE_PATH base = base ++ ("/") ++ ("yago/yago-wd-full-types_dict.pickle")
      rw [TYPE_FILE_PATH_eq, String.append_assoc]
      rfl
    · refine ⟨("yago/yago-wd-class_dict.pickle"), ?_⟩
      show CLASS_FILE_PATH base = base ++ ("/") ++ ("yago/yago-wd-class_dict.pickle")
      rw [CLASS_FILE_PATH_eq, String.append_assoc]
      rfl
    · refine ⟨("yago/yago-wd-facts_dict.pickle"), ?_⟩
      show FACT_FILE_PATH base = base ++ ("/") ++ ("yago/yago-wd-facts_dict.pickle")
      rw [FACT_FILE_PATH_eq, String.append_assoc]
      rfl
    · refine ⟨("santos/hashmap/dialite_datalake_main_yago_index.pickle"), ?_⟩
      show YAGO_MAIN_INVERTED_INDEX_PATH base =
        base ++ ("/") ++ ("santos/hashmap/dialite_datalake_main_yago_index.pickle")
      rw [YAGO_MAIN_INVERTED_INDEX_PATH_eq, String.append_assoc]
      rfl
    · refine ⟨("santos/hashmap/dialite_datalake_main_relation_index.pickle"), ?_⟩
      show YAGO_MAIN_RELATION_INDEX_PATH base =
        base ++ ("/") ++ ("santos/hashmap/dialite_datalake_main_relation_index.pickle")
      rw [YAGO_MAIN_RELATION_INDEX_PATH_eq, String.append_assoc]
      rfl
    · refine ⟨("santos/hashmap/dialite_datalake_main_triple_index.pickle"), ?_⟩
      show YAGO_MAIN_PICKLE_TRIPLE_INDEX_PATH base =
        base ++ ("/") ++ ("santos/hashmap/dialite_datalake_main_triple_index.pickle")
      rw [YAGO_MAIN_PICKLE_TRIPLE_INDEX_PATH_eq, String.append_assoc]
      rfl
    · refine ⟨("santos/hashmap/dialite_datalake_synth_type_kb.pbz2"), ?_⟩
      show SYNTH_TYPE_KB_PATH base =
        base ++ ("/") ++ ("santos/hashmap/dialite_datalake_synth_type_kb.pbz2")
      rw [SYNTH_TYPE_KB_PATH_eq, String.append_assoc]
      rfl
    · refine ⟨("santos/hashmap/dialite_datalake_synth_relation_kb.pbz2"), ?_⟩
      show SYNTH_RELATION_KB_PATH base =
        base ++ ("/") ++ ("santos/hashmap/dialite_datalake_synth_relation_kb.pbz2")
      rw [SYNTH_RELATION_KB_PATH_eq, String.append_assoc]
      rfl
    · refine ⟨("santos/hashmap/dialite_datalake_synth_type_inverted_index.pbz2"), ?_⟩
      show SYNTH_TYPE_INVERTED_INDEX_PATH base =
        base ++ ("/") ++ ("santos/hashmap/dialite_datalake_synth_type_inverted_index.pbz2")
      rw [SYNTH_TYPE_INVERTED_INDEX_PATH_eq, String.append_assoc]
      rfl
    · refine ⟨("santos/hashmap/dialite_datalake_synth_relation_inverted_index.pbz2"), ?_⟩
      show SYNTH_RELATION_INVERTED_INDEX_PATH base =
        base ++ ("/") ++ ("santos/hashmap/dialite_datalake_synth_relation_inverted_index.pbz2")
      rw [SYNTH_RELATION_INVERTED_INDEX_PATH_eq, String.append_assoc]
      rfl
  · intro k hk
    rw [hkeysperm.count_eq k]
    exact List.count_eq_one_of_mem dictionaryKeys_nodup hk
  · intro t ht
    exact ⟨decodedOrDefault fs t.1, hlook t ht⟩
  · rw [all_dictionaries, List.map_map]
    rfl
  · rw [all_dictionaries, List.length_map]
    rfl
  · intro pr hpr
    rw [all_dictionaries] at hpr
    obtain ⟨k, hk, hkpr⟩ := List.mem_map.1 hpr
    rw [← load_tasks_keys base] at hk
    obtain ⟨t, ht, htk⟩ := List.mem_map.1 hk
    subst hkpr
    subst htk
    exact ⟨decodedOrDefault fs t.1, hlook t ht⟩

/-- Witness for C8: the registry facts hold for the run where every file
decodes to the empty mapping and completions arrive in registry order. -/
theorem registry_completeness_witness :
    (all_dictionaries ((load_tasks ("d")).map
        (fun t => (t.2, decodedOrDefault fsUnit t.1)))).map Prod.fst =
      dictionaryKeys :=
  (registry_completeness fsUnit ("d") (load_tasks ("d"))
      ((load_tasks ("d")).map (fun t => (t.2, decodedOrDefault fsUnit t.1)))
      (List.Perm.refl _) (by decide)).2.2.2.2.2.2.2.1

/-- C9: Failure diagnostics and termination: in every run in which some
artifact decode fails, the completion loop prints the failure diagnostic - a
human-readable line naming the failing artifact file and the stringified
root cause - the process then terminates with the non-zero status 1 before
the module-level consumer accessors ever run, and `get` on every key yields
`NotReady`; no failure mode is silent. -/
theorem failure_diagnostics_and_termination (fs : FileSystem) (base : String)
    (order : List (String × String)) (hperm : order.Perm (load_tasks base))
    (hfail : ∃ t ∈ order, decodeOpt fs t.1 = none) :
    ∃ msgs a p e acc,
      loadAllDictionaries fs order = (msgs, BatchOutcome.exitedWithFailure a p e acc) ∧
      load_single_dictionary fs p = Except.error e ∧
      failDiag p e ∈ msgs ∧
      failDiag p e = ("❌ Failed to load ") ++ basename p ++ (": ") ++ failMessage e ∧
      loaderInit fs order = InitResult.exited 1 ∧ (1 : Nat) ≠ 0 ∧
      ∀ key, cacheGet (loaderInit fs order) key = Except.error GetError.notReady := by
  obtain ⟨msgs2, a, p, e, acc2, hexit⟩ := completionLoop_exits_of_fail fs order [] [] hfail
  obtain ⟨hcause, hmem, hdiag⟩ :=
    completionLoop_exited_cause fs order [] [] msgs2 a p e acc2 hexit
  have hinit : loaderInit fs order = InitResult.exited 1 := by
    simp only [loaderInit, loadAllDictionaries, hexit]
  exact ⟨msgs2, a, p, e, acc2, hexit, hcause, hdiag, rfl, hinit, by decide,
    fun key => by rw [hinit]; rfl⟩

/-- Witness for C9: with every artifact file absent, a failure diagnostic is
emitted and the process terminates with status 1. -/
theorem failure_diagnostics_and_termination_witness :
    ∃ msgs a p e acc,
      loadAllDictionaries (fun _ => none) (load_tasks ("d")) =
        (msgs, BatchOutcome.exitedWithFailure a p e acc) ∧
      load_single_dictionary (fun _ => none) p = Except.error e ∧
      failDiag p e ∈ msgs ∧
      failDiag p e = ("❌ Failed to load ") ++ basename p ++ (": ") ++ failMessage e ∧
      loaderInit (fun _ => none) (load_tasks ("d")) = InitResult.exited 1 ∧
      (1 : Nat) ≠ 0 ∧
      ∀ key, cacheGet (loaderInit (fun _ => none) (load_tasks ("d"))) key =
        Except.error GetError.notReady :=
  failure_diagnostics_and_termination (fun _ => none) ("d") (load_tasks ("d"))
    (List.Perm.refl _)
    ⟨(LABEL_FILE_PATH ("d"), ("label_dict")), by decide, by decide⟩

end Dialite
